import Mathlib

/-!
Verification of the skill-signal extraction and matching core of the
AI-Talent-finder repository (`src/skill_profiles.py`,
`src/opportunity_matching.py`, `src/data_sources.py`).

The Python code is shallowly embedded: text is modelled as `List Char`
(all inputs of interest are ASCII), Python floats as real numbers,
Python dicts keyed by normalized skill name as insertion-ordered
association lists, and Python sets as `Finset`.
-/

namespace Talent

/-- ASCII lower-casing of one character, as Python `str.lower` acts on
ASCII text (all lexicon terms and modelled documents are ASCII). -/
def lowerChar (c : Char) : Char :=
  if 'A' ≤ c ∧ c ≤ 'Z' then Char.ofNat (c.toNat + 32) else c

/-- Python's `str.strip()` on a character list: drop leading and
trailing whitespace. -/
def stripChars (l : List Char) : List Char :=
  ((l.dropWhile Char.isWhitespace).reverse.dropWhile Char.isWhitespace).reverse

/-- Python's `str.strip()`. -/
def pyStrip (s : String) : String :=
  String.mk (stripChars s.data)

/-- Python's `str.split(sep)` for a one-character separator. -/
def pySplit (sep : Char) (s : String) : List String :=
  (s.data.splitOnP (· = sep)).map fun w => String.mk w

/-- A word character in the sense of Python's regex `\b` boundary
(ASCII `\w`): letters, digits, underscore. -/
def isWordChar (c : Char) : Bool :=
  c.isAlphanum || c = '_'

/-- `True` iff position `i` of `text` holds a word character. Positions
outside the text count as non-word, as for Python's `\b` at the ends. -/
def wordCharAt (text : List Char) (i : Nat) : Bool :=
  match text.get? i with
  | some c => isWordChar c
  | none => false

/-- Python's `\b`: the empty match succeeds at position `i` iff exactly
one of the neighbouring characters is a word character. -/
def boundaryAt (text : List Char) (i : Nat) : Bool :=
  (if i = 0 then false else wordCharAt text (i - 1)) != wordCharAt text i

/-- Case-insensitive literal match of `pat` at position `i` of `text`. -/
def litMatchAt (text pat : List Char) (i : Nat) : Bool :=
  ((text.drop i).take pat.length).map lowerChar = pat.map lowerChar

/-- Whole-word (`\b`-delimited) case-insensitive match of the literal
`pat` at position `i`, as `re.compile(rf"\b{re.escape(skill)}\b", re.IGNORECASE)`
matches at one position. -/
def wordMatchAt (text pat : List Char) (i : Nat) : Bool :=
  litMatchAt text pat i && boundaryAt text i && boundaryAt text (i + pat.length)

/-- The detection patterns appearing in `IMPLICIT_PATTERNS` all have one
of three shapes, which this type enumerates:
`\bw\b` (a literal word or phrase), `\bw(suf)?\b` (optional suffix), and
`\bw1\b.*\bw2\b` (two words with anything but newlines between). -/
inductive Pat where
  | word (w : String)
  | wordOpt (w suf : String)
  | around (w1 w2 : String)
deriving DecidableEq

/-- No newline occurs in `text` between positions `i` (inclusive) and
`j` (exclusive): Python's `.` does not match `\n`. -/
def noNewlineBetween (text : List Char) (i j : Nat) : Bool :=
  ((text.drop i).take (j - i)).all (· ≠ '\n')

/-- Length of the regex match of pattern `p` at position `i` of `text`,
if any, following Python `re` semantics (greedy `?` and `.*`). -/
def patMatchLenAt (text : List Char) (p : Pat) (i : Nat) : Option Nat :=
  match p with
  | .word w =>
      if wordMatchAt text w.data i then some w.data.length else none
  | .wordOpt w suf =>
      let long := w.data ++ suf.data
      if wordMatchAt text long i then some long.length
      else if wordMatchAt text w.data i then some w.data.length
      else none
  | .around w1 w2 =>
      if wordMatchAt text w1.data i then
        -- greedy `.*`: the match extends to the last `\bw2\b` occurrence
        -- reachable without crossing a newline
        let ks := (List.range (text.length + 1)).filter fun k =>
          decide (i + w1.data.length ≤ k) && wordMatchAt text w2.data k &&
            noNewlineBetween text (i + w1.data.length) k
        match ks.getLast? with
        | some k => some (k + w2.data.length - i)
        | none => none
      else none

/-- Non-overlapping left-to-right scan, as `re.finditer`: at each
position try the pattern; on success emit the span and resume after it.
`fuel` bounds the recursion (`text.length + 1` always suffices). -/
def patFindAux (text : List Char) (p : Pat) : Nat → Nat → List (Nat × Nat)
  | 0, _ => []
  | fuel + 1, i =>
      if i ≥ text.length + 1 then []
      else
        match patMatchLenAt text p i with
        | some len => (i, i + len) :: patFindAux text p fuel (i + max len 1)
        | none => patFindAux text p fuel (i + 1)

/-- All matches of pattern `p` in `text`, in order, non-overlapping. -/
def patFind (text : List Char) (p : Pat) : List (Nat × Nat) :=
  patFindAux text p (text.length + 1) 0

/-- `_match_skill_occurrences`: spans of the case-insensitive whole-word
occurrences of `skill` in `text`. -/
def matchSkillOccurrences (text : List Char) (skill : String) : List (Nat × Nat) :=
  patFind text (.word skill)

/-- Modelled from the spec: `skills.normalize_skill` (module `skills.py`
is not under `src/`). Per §4.1 the normalizer is deterministic, pure,
case-insensitive, collapses internal whitespace and strips
leading/trailing whitespace; it is modelled as lower-casing followed by
whitespace-splitting and re-joining with single spaces. -/
def normalize_skill (name : String) : String :=
  " ".intercalate (((name.data.map lowerChar).splitOnP Char.isWhitespace).map
      (fun w => String.mk w) |>.filter (· ≠ ""))

/-- `FORMAL_SKILL_FRAMEWORK` from `skill_profiles.py`, verbatim. -/
def FORMAL_SKILL_FRAMEWORK : List (String × List String) :=
  [("Technical Foundation",
      ["python", "java", "javascript", "typescript", "c++", "c#", "sql", "cloud",
       "aws", "azure", "gcp", "docker", "kubernetes", "ci/cd", "git"]),
   ("Data & AI",
      ["data analysis", "data science", "machine learning", "deep learning",
       "computer vision", "nlp", "mlops", "pandas", "numpy", "tensorflow",
       "pytorch", "xgboost"]),
   ("Product & Delivery",
      ["project management", "agile", "scrum", "kanban", "product management",
       "stakeholder management", "roadmapping", "testing", "qa", "devops"]),
   ("Leadership & Impact",
      ["leadership", "mentorship", "communication", "strategic planning",
       "problem solving", "innovation", "change management"])]

/-- `FRAMEWORK_LOOKUP`: normalized skill → framework category. -/
def FRAMEWORK_LOOKUP (key : String) : Option String :=
  (FORMAL_SKILL_FRAMEWORK.flatMap fun cs =>
      cs.2.map fun s => (normalize_skill s, cs.1)).lookup key

/-- Modelled from the spec: `skills.COMMON_SKILLS` (module `skills.py`
is not under `src/`). Per §2 the lexicon holds the known explicit skill
terms together with the normalized-skill → framework-category mapping,
so the explicit terms are modelled as the skill terms of the framework
table, in table order. -/
def COMMON_SKILLS : List String :=
  FORMAL_SKILL_FRAMEWORK.flatMap (·.2)

/-- `IMPLICIT_PATTERNS` from `skill_profiles.py`: implicit skill →
detection patterns, in source order. -/
def IMPLICIT_PATTERNS : List (String × List Pat) :=
  [("leadership", [.word "led", .word "managed", .wordOpt "head" "ed", .word "directed"]),
   ("mentorship", [.word "mentored", .word "coached", .word "trained"]),
   ("stakeholder management", [.wordOpt "stakeholder" "s", .around "aligned" "team"]),
   ("communication", [.word "presented", .word "facilitated", .word "workshop"]),
   ("strategic planning", [.word "roadmap", .word "strategy", .word "vision"]),
   ("problem solving", [.word "root cause", .wordOpt "troubleshoot" "ed", .word "debugged"]),
   ("continuous improvement",
      [.word "retrospective", .word "continuous improvement", .word "kaizen"]),
   ("governance", [.wordOpt "audit" "ed", .word "compliance", .word "risk"]),
   ("innovation", [.wordOpt "prototype" "d", .wordOpt "experiment" "s", .word "hackathon"])]

/-- `IMPLICIT_CATEGORY` from `skill_profiles.py`. -/
def IMPLICIT_CATEGORY (key : String) : Option String :=
  ([("leadership", "Leadership & Impact"),
    ("mentorship", "Leadership & Impact"),
    ("stakeholder management", "Product & Delivery"),
    ("communication", "Leadership & Impact"),
    ("strategic planning", "Leadership & Impact"),
    ("problem solving", "Technical Foundation"),
    ("continuous improvement", "Product & Delivery"),
    ("governance", "Product & Delivery"),
    ("innovation", "Leadership & Impact")] : List (String × String)).lookup key

/-- `SourceDocument` from `data_sources.py` (the fields the core uses). -/
structure SourceDocument where
  name : String
  kind : String
  text : String
  visibility : String
  origin : String
deriving DecidableEq

/-- `_snippet`: a ±90-character window around the span, newlines
collapsed to spaces, surrounding whitespace stripped. -/
def snippetOf (text : List Char) (start stop : Nat) (window : Nat := 90) : String :=
  let left := start - window
  let right := min text.length (stop + window)
  String.mk (stripChars (((text.drop left).take (right - left)).map
      (fun c => if c = '\n' then ' ' else c)))

/-- One raw occurrence event, as fed to `_register_signal` by the loops
of `build_skill_profile` (the registration uses only `source.name`, so
the event carries the source name). -/
structure OccurrenceEvent where
  name : String
  category : String
  sigType : String
  sourceName : String
  snippet : Option String
deriving DecidableEq

/-- The explicit-detection and implicit-detection loops of
`build_skill_profile` for one document, in iteration order: every
lexicon skill in lexicon order with its occurrences in position order,
then every implicit pattern in table order. -/
def extract_events (doc : SourceDocument) : List OccurrenceEvent :=
  let text := doc.text.data
  (COMMON_SKILLS.flatMap fun skill =>
    (matchSkillOccurrences text skill).map fun se =>
      { name := skill
        category := (FRAMEWORK_LOOKUP (normalize_skill skill)).getD "Technical Foundation"
        sigType := "explicit"
        sourceName := doc.name
        snippet := some (snippetOf text se.1 se.2) }) ++
  (IMPLICIT_PATTERNS.flatMap fun ip =>
    ip.2.flatMap fun p =>
      (patFind (text.map lowerChar) p).map fun se =>
        { name := ip.1
          category := (IMPLICIT_CATEGORY ip.1).getD "Leadership & Impact"
          sigType := "implicit"
          sourceName := doc.name
          snippet := some (snippetOf text se.1 se.2) })

/-- String order used by Python's `sorted` on strings: lexicographic by
code point, stated on the underlying character lists (equivalent to the
standard string order; the character-list form reduces in the kernel). -/
def strLe (a b : String) : Prop :=
  a.data ≤ b.data

instance : DecidableRel strLe :=
  fun a b => inferInstanceAs (Decidable (a.data ≤ b.data))

instance : IsTrans String strLe where
  trans _ _ _ h₁ h₂ := le_trans h₁ h₂

instance : IsAntisymm String strLe where
  antisymm a b h₁ h₂ := by
    cases a; cases b
    exact congrArg String.mk (le_antisymm h₁ h₂)

instance : IsTotal String strLe where
  total a b := le_total a.data b.data

/-- `SkillEvidence` from `skill_profiles.py`. -/
structure SkillEvidence where
  source : String
  snippet : String
deriving DecidableEq

/-- One registry entry: the per-normalized-skill dict that
`_register_signal` builds (`name`, `category`, `type`, `sources`,
`snippets`, `mentions`). Python's source set is a `Finset`. -/
structure RegEntry where
  name : String
  category : String
  sigType : String
  sources : Finset String
  snippets : List SkillEvidence
  mentions : Nat
deriving DecidableEq

/-- The registry dict: insertion-ordered association list keyed by
normalized skill name. -/
abbrev Registry := List (String × RegEntry)

/-- First value stored under key `k` in an association list, as a
Python dict lookup (keys are unique in every dict the code builds). -/
def findEntry {α : Type} : List (String × α) → String → Option α
  | [], _ => none
  | kv :: rest, k => if kv.1 = k then some kv.2 else findEntry rest k

/-- The mutation `_register_signal` applies to the entry at its key:
increment `mentions`, add the source name, and append the evidence
snippet when it is present and non-empty (Python's `if snippet:`). -/
def bumpEntry (sourceName : String) (snippet : Option String) (e : RegEntry) : RegEntry :=
  { e with
    mentions := e.mentions + 1
    sources := insert sourceName e.sources
    snippets := e.snippets ++
      (match snippet with
       | some s => if s ≠ "" then [⟨sourceName, s⟩] else []
       | none => []) }

/-- `_register_signal`: `setdefault` the entry for the normalized name
(first occurrence fixes display name, category and signal kind), then
bump it. A fresh key is appended at the end of the dict, as Python
insertion order does. -/
def _register_signal (registry : Registry) (ev : OccurrenceEvent) : Registry :=
  let key := normalize_skill ev.name
  if (findEntry registry key).isSome then
    registry.map fun kv =>
      if kv.1 = key then (kv.1, bumpEntry ev.sourceName ev.snippet kv.2) else kv
  else
    registry ++ [(key, bumpEntry ev.sourceName ev.snippet
      { name := ev.name
        category := if ev.category = "" then "Uncategorized" else ev.category
        sigType := ev.sigType
        sources := ∅
        snippets := []
        mentions := 0 })]

/-- The non-blank filter of `build_skill_profile`:
`[src for src in sources if src and src.text.strip()]`. -/
def keptSources (sources : List SourceDocument) : List SourceDocument :=
  sources.filter fun s => pyStrip s.text ≠ ""

/-- The registry accumulated by `build_skill_profile` over a batch:
all events of all kept documents, in document order, folded through
`_register_signal`. -/
def buildRegistry (sources : List SourceDocument) : Registry :=
  ((keptSources sources).flatMap extract_events).foldl _register_signal []

/-- `SkillSignal` from `skill_profiles.py`; `confidence` is a Python
float, modelled as a real number. -/
structure SkillSignal where
  name : String
  category : String
  signal_type : String
  confidence : ℝ
  sources : List String
  evidence : List SkillEvidence

/-- Python's `round(x, 2)` on the idealized real value: round to the
nearest multiple of `1/100` (the confidence values reached by the code
are never exact half-way ties, so the tie-breaking rule is immaterial). -/
noncomputable def round2 (x : ℝ) : ℝ :=
  (round (x * 100) : ℤ) / 100

/-- The confidence computation of `_finalize_registry`, as a function of
the signal kind, the mention count and the number of distinct sources. -/
noncomputable def confidenceOf (sigType : String) (mentions nSources : Nat) : ℝ :=
  let mention_bonus := min 0.35 (0.12 * Real.log (1 + (mentions : ℝ)))
  let source_bonus := min 0.2 (0.08 * max 0 ((nSources : ℝ) - 1))
  let base := if sigType = "explicit" then (0.55 : ℝ) else 0.45
  round2 (min 0.98 (base + mention_bonus + source_bonus))

/-- The `SkillSignal` that `_finalize_registry` constructs from one
registry entry: scored confidence, sorted source names, and the first
three evidence snippets. -/
noncomputable def signalOfEntry (e : RegEntry) : SkillSignal :=
  { name := e.name
    category := e.category
    signal_type := e.sigType
    confidence := confidenceOf e.sigType e.mentions e.sources.card
    sources := e.sources.sort strLe
    evidence := e.snippets.take 3 }

/-- The order in which `_finalize_registry` returns signals:
`sorted(key=lambda s: (s.confidence, s.name), reverse=True)`, that is,
confidence descending with name descending as tie-break. `signalLE a b`
says `a` may precede `b`. -/
def signalLE (a b : SkillSignal) : Prop :=
  b.confidence < a.confidence ∨ (b.confidence = a.confidence ∧ strLe b.name a.name)

noncomputable instance : DecidableRel signalLE :=
  fun _ _ => Classical.propDecidable _

instance : IsTotal SkillSignal signalLE where
  total a b := by
    rcases lt_trichotomy a.confidence b.confidence with h | h | h
    · exact Or.inr (Or.inl h)
    · rcases IsTotal.total (r := strLe) a.name b.name with hn | hn
      · exact Or.inr (Or.inr ⟨h, hn⟩)
      · exact Or.inl (Or.inr ⟨h.symm, hn⟩)
    · exact Or.inl (Or.inl h)

instance : IsTrans SkillSignal signalLE where
  trans a b c hab hbc := by
    rcases hab with h₁ | ⟨h₁, hn₁⟩ <;> rcases hbc with h₂ | ⟨h₂, hn₂⟩
    · exact Or.inl (h₂.trans h₁)
    · exact Or.inl (h₂.trans_lt h₁)
    · exact Or.inl (h₂.trans_eq h₁)
    · exact Or.inr ⟨h₂.trans h₁, Trans.trans hn₂ hn₁⟩

/-- `_finalize_registry`: score every entry and sort the signals by
confidence descending, name descending as tie-break (Python's sort is
stable; in every registry the code builds, display names are pairwise
distinct, so the sorted sequence is unique regardless of stability). -/
noncomputable def _finalize_registry (registry : Registry) : List SkillSignal :=
  List.insertionSort signalLE (registry.map fun kv => signalOfEntry kv.2)

/-- A Python `Counter` built from a list: association list in
first-occurrence order with occurrence counts. -/
def counterOf (l : List String) : List (String × Nat) :=
  l.foldl (fun acc s =>
    if (findEntry acc s).isSome then
      acc.map fun kv => if kv.1 = s then (kv.1, kv.2 + 1) else kv
    else acc ++ [(s, 1)]) []

/-- One value of the `framework_alignment` table of `_profile_stats`. -/
structure AlignEntry where
  covered : List String
  coverage : ℝ
  target_total : Nat

/-- The `framework_alignment` loop body of `_profile_stats` for one
framework category with target list `skills`. -/
noncomputable def alignFor (signals : List SkillSignal) (category : String)
    (skills : List String) : AlignEntry :=
  let normalized_targets : Finset String := (skills.map normalize_skill).toFinset
  let covered : Finset String :=
    ((signals.filter fun s => s.category = category).map
      fun s => normalize_skill s.name).toFinset
  let coverage : ℝ :=
    if normalized_targets ≠ ∅ then
      ((covered ∩ normalized_targets).card : ℝ) / normalized_targets.card
    else 0
  { covered := (covered ∩ normalized_targets).sort strLe
    coverage := round2 coverage
    target_total := normalized_targets.card }

/-- `ProfileStats`: the dict returned by `_profile_stats`. -/
structure ProfileStats where
  source_count : Nat
  explicit_count : Nat
  implicit_count : Nat
  category_distribution : List (String × Nat)
  framework_alignment : List (String × AlignEntry)
  avg_confidence : ℝ
  sources_visibility : List (String × Nat)
  top_sources : List String

/-- `_profile_stats` from `skill_profiles.py`. -/
noncomputable def _profile_stats (signals : List SkillSignal)
    (sources : List SourceDocument) : ProfileStats :=
  { source_count := sources.length
    explicit_count := (signals.filter fun s => s.signal_type = "explicit").length
    implicit_count := (signals.filter fun s => s.signal_type = "implicit").length
    category_distribution := counterOf (signals.map (·.category))
    framework_alignment :=
      FORMAL_SKILL_FRAMEWORK.map fun cs => (cs.1, alignFor signals cs.1 cs.2)
    avg_confidence :=
      if signals.isEmpty then 0
      else round2 ((signals.map (·.confidence)).sum / signals.length)
    sources_visibility := counterOf (sources.map (·.visibility))
    top_sources := (sources.take 3).map (·.name) }

/-- Python's `str.title()` on ASCII text: upper-case every cased
character that follows a non-cased character, lower-case the rest. -/
def titleCase (s : String) : String :=
  String.mk ((s.data.foldl (fun acc c =>
    let c' := if acc.2 then
        (if 'a' ≤ c ∧ c ≤ 'z' then Char.ofNat (c.toNat - 32) else c)
      else lowerChar c
    (acc.1 ++ [c'], !c.isAlpha) ) (([] : List Char), true)).1)

/-- `summarize_profile`; `render` models Python's f-string rendering of
a float (the summary text embeds `avg_confidence`). -/
noncomputable def summarize_profile (render : ℝ → String)
    (signals : List SkillSignal) (stats : ProfileStats) : String :=
  if signals.isEmpty then
    "No skills detected yet. Add more sources to unlock hidden strengths."
  else
    let top := ", ".intercalate ((signals.take 5).map fun s => titleCase s.name)
    let categories := ", ".intercalate (stats.category_distribution.map
      fun kv => kv.1 ++ " (" ++ toString kv.2 ++ ")")
    "Identified " ++ toString stats.explicit_count ++ " explicit and " ++
      toString stats.implicit_count ++ " implicit skills across " ++
      toString stats.source_count ++ " sources. Top strengths: " ++ top ++
      ". Coverage spans " ++ categories ++ " with an average confidence of " ++
      render stats.avg_confidence ++ "."

/-- The dict returned by `build_skill_profile`. -/
structure SkillProfileP where
  signals : List SkillSignal
  stats : ProfileStats
  summary : String

/-- `build_skill_profile` from `skill_profiles.py`: filter blank
sources, extract and register all events, finalize, compute stats and
summary. -/
noncomputable def build_skill_profile (render : ℝ → String)
    (sources : List SourceDocument) : SkillProfileP :=
  let kept := keptSources sources
  let signals := _finalize_registry (buildRegistry sources)
  let stats := _profile_stats signals kept
  { signals := signals
    stats := stats
    summary := summarize_profile render signals stats }

/-- One step of the dict comprehension in `as_skill_set`: store the
signal under its normalized name, overwriting in place when the key
already exists, appending otherwise. -/
def skillSetInsert (acc : List (String × SkillSignal)) (sig : SkillSignal) :
    List (String × SkillSignal) :=
  let key := normalize_skill sig.name
  if (findEntry acc key).isSome then
    acc.map fun kv => if kv.1 = key then (kv.1, sig) else kv
  else acc ++ [(key, sig)]

/-- `as_skill_set` from `skill_profiles.py`: the Python dict
comprehension mapping `normalize_skill(signal.name)` to the signal —
later signals overwrite the value, the key keeps its first position. -/
def as_skill_set (signals : List SkillSignal) : List (String × SkillSignal) :=
  signals.foldl skillSetInsert []

/-- Key membership in a skill set (`key in candidate_skillset`). -/
def hasKey (skillset : List (String × SkillSignal)) (key : String) : Bool :=
  (findEntry skillset key).isSome

/-- Python's `sorted(set(names))`: deduplicate, then sort ascending
(the set drops duplicates in unspecified order; sorting makes the
result the unique ascending duplicate-free enumeration). -/
def sortedSet (names : List String) : List String :=
  List.insertionSort strLe names.dedup

/-- Python's `sorted(names)` on a list of strings (stable; strings are
totally ordered so the result is the unique ascending reordering). -/
def sortedList (names : List String) : List String :=
  List.insertionSort strLe names

/-- The synthetic public document `match_profile_to_job` builds from
the job text. -/
def jobSourceOf (job_text : String) : SourceDocument :=
  { name := "Job Posting", kind := "job", text := pyStrip job_text
    visibility := "public", origin := "manual" }

/-- `JobMatchResult` from `opportunity_matching.py`. -/
structure JobMatchResult where
  coverage : ℝ
  matched : List String
  gaps : List String
  recommendations : List (String × String)
  raw_job_profile : SkillProfileP

/-- `match_profile_to_job` from `opportunity_matching.py`. `render`
models float rendering (see `summarize_profile`); `resources` models
`learning_resources.get_learning_resources`, an external lookup
(Modelled from the spec: `learning_resources.py` is not under `src/`;
§6 describes it as a mapping from skill names to resource URLs that
only decorates output). -/
noncomputable def match_profile_to_job (render : ℝ → String)
    (resources : List String → List (String × String))
    (skill_profile : SkillProfileP) (job_text : String) : Option JobMatchResult :=
  if job_text = "" ∨ pyStrip job_text = "" then none
  else
    let job_profile := build_skill_profile render [jobSourceOf job_text]
    let candidate_skillset := as_skill_set skill_profile.signals
    let job_skillset := as_skill_set job_profile.signals
    if job_skillset.isEmpty then
      some { coverage := 0, matched := [], gaps := [], recommendations := []
             raw_job_profile := job_profile }
    else
      let matched := (job_skillset.filter fun kv =>
        hasKey candidate_skillset kv.1).map fun kv => kv.2.name
      let gaps := (job_skillset.filter fun kv =>
        !hasKey candidate_skillset kv.1).map fun kv => kv.2.name
      let coverage : ℝ :=
        if job_skillset.isEmpty then 0 else (matched.length : ℝ) / job_skillset.length
      some
        { coverage := round2 coverage
          matched := sortedSet matched
          gaps := sortedSet gaps
          recommendations := resources gaps
          raw_job_profile := job_profile }

/-- One parsed team member (`{"name": ..., "skills": [...]}`). -/
structure TeamMember where
  name : String
  skills : List String
deriving DecidableEq

/-- One line of the team-inventory format: `None` when the line has no
colon or its comma-split skill list is empty after trimming, otherwise
the member with trimmed name and trimmed non-empty skills. -/
def parseTeamLine (line : String) : Option TeamMember :=
  if ¬ line.data.contains ':' then none
  else
    let name := String.mk (line.data.takeWhile (· ≠ ':'))
    let blob := String.mk ((line.data.dropWhile (· ≠ ':')).drop 1)
    let skills := ((pySplit ',' blob).map pyStrip).filter (· ≠ "")
    if skills = [] then none
    else some { name := pyStrip name, skills := skills }

/-- `parse_team_profiles` from `opportunity_matching.py`; Python
`splitlines` is modelled as splitting on `\n` (a final empty line or a
colon-free fragment is skipped either way). -/
def parse_team_profiles (raw_text : String) : List TeamMember :=
  if raw_text = "" then []
  else (pySplit '\n' raw_text).filterMap parseTeamLine

/-- The dict returned by `compare_against_team`. -/
structure TeamComparison where
  team_size : Nat
  team_skill_coverage : Nat
  unique_strengths : List String
  team_gaps : List String
deriving DecidableEq

/-- `compare_against_team` from `opportunity_matching.py`: the union of
the members' normalized skills is the team skill-key set; the
candidate's keys outside it name the unique strengths, the team keys
outside the candidate's are the gaps, both reported sorted. -/
def compare_against_team (skill_profile : SkillProfileP)
    (team_profiles : List TeamMember) : TeamComparison :=
  let candidate_skillset := as_skill_set skill_profile.signals
  let candidate_keys := candidate_skillset.map (·.1)
  let team_skillset : Finset String :=
    team_profiles.foldl (fun acc m =>
      m.skills.foldl (fun a sk => insert (normalize_skill sk) a) acc) ∅
  let unique_strengths := (candidate_skillset.filter fun kv =>
    kv.1 ∉ team_skillset).map fun kv => kv.2.name
  let missing_in_team := team_skillset.filter fun k => k ∉ candidate_keys
  { team_size := team_profiles.length
    team_skill_coverage := team_skillset.card
    unique_strengths := sortedList unique_strengths
    team_gaps := missing_in_team.sort strLe }

/-- The bullet `generate_cv_highlights` builds for one signal; `render`
models the f-string rendering of the confidence float. -/
def bulletFor (render : ℝ → String) (signal : SkillSignal) : String :=
  let snippet := match signal.evidence with
    | [] => ""
    | e :: _ => e.snippet
  let bullet := titleCase signal.name ++ " (" ++ signal.category ++
    ") - confidence " ++ render signal.confidence
  if snippet ≠ "" then
    bullet ++ "; evidence: " ++ String.mk (snippet.data.take 120) ++ "..."
  else bullet

/-- `generate_cv_highlights` from `opportunity_matching.py`: one bullet
per signal among the first `limit` signals (default 4). -/
def generate_cv_highlights (render : ℝ → String) (skill_profile : SkillProfileP)
    (limit : Nat := 4) : List String :=
  (skill_profile.signals.take limit).map (bulletFor render)

/-- Mention count stored under key `k` (0 when the key is absent). -/
def mentionsAt (reg : Registry) (k : String) : Nat :=
  ((findEntry reg k).map (·.mentions)).getD 0

/-- Contributing-source set stored under key `k` (empty when absent). -/
def sourcesAt (reg : Registry) (k : String) : Finset String :=
  ((findEntry reg k).map (·.sources)).getD ∅

/-- The normalized key an occurrence event is registered under. -/
def evKey (ev : OccurrenceEvent) : String :=
  normalize_skill ev.name

/-- All events a document batch feeds into the registry, in order. -/
def allEvents (sources : List SourceDocument) : List OccurrenceEvent :=
  (keptSources sources).flatMap extract_events

lemma buildRegistry_eq (sources : List SourceDocument) :
    buildRegistry sources = (allEvents sources).foldl _register_signal [] := rfl

lemma allEvents_append (l₁ l₂ : List SourceDocument) :
    allEvents (l₁ ++ l₂) = allEvents l₁ ++ allEvents l₂ := by
  simp [allEvents, keptSources, List.filter_append]

lemma findEntry_append {α : Type} (l₁ l₂ : List (String × α)) (k : String) :
    findEntry (l₁ ++ l₂) k =
      if (findEntry l₁ k).isSome then findEntry l₁ k else findEntry l₂ k := by
  induction l₁ with
  | nil => simp [findEntry]
  | cons kv l₁ ih =>
      by_cases h : kv.1 = k
      · simp [findEntry, h]
      · simpa [findEntry, h] using ih

lemma findEntry_mapUpdate {α : Type} (reg : List (String × α)) (key : String)
    (f : α → α) (k : String) :
    findEntry (reg.map fun kv => if kv.1 = key then (kv.1, f kv.2) else kv) k =
      if k = key then (findEntry reg k).map f else findEntry reg k := by
  induction reg with
  | nil => simp [findEntry]
  | cons kv reg ih =>
      by_cases hk : kv.1 = key
      · by_cases hkk : k = key
        · simp [findEntry, hk, hkk]
        · have : kv.1 ≠ k := fun h => hkk (h ▸ hk ▸ rfl)
          simp only [List.map_cons, if_pos hk, findEntry, this, if_neg this, if_neg hkk] at *
          simpa [hkk] using ih
      · by_cases hkv : kv.1 = k
        · have hkk : ¬ (k = key) := fun h => hk (hkv.trans h)
          simp [findEntry, hk, hkv, hkk]
        · simp only [List.map_cons, if_neg hk, findEntry, if_neg hkv] at *
          exact ih

lemma findEntry_isSome_iff {α : Type} (reg : List (String × α)) (k : String) :
    (findEntry reg k).isSome ↔ k ∈ reg.map (·.1) := by
  induction reg with
  | nil => simp [findEntry]
  | cons kv reg ih =>
      by_cases h : kv.1 = k
      · simp [findEntry, h]
      · have h' : ¬ (k = kv.1) := fun hh => h hh.symm
        simp [findEntry, h, h', ih]

lemma mentionsAt_register (reg : Registry) (ev : OccurrenceEvent) (k : String) :
    mentionsAt (_register_signal reg ev) k =
      mentionsAt reg k + (if evKey ev = k then 1 else 0) := by
  unfold _register_signal
  by_cases hs : (findEntry reg (normalize_skill ev.name)).isSome
  · rw [if_pos hs]
    unfold mentionsAt
    rw [findEntry_mapUpdate]
    by_cases hk : k = normalize_skill ev.name
    · subst hk
      obtain ⟨e, he⟩ := Option.isSome_iff_exists.mp hs
      simp [he, bumpEntry, evKey]
    · have h2 : ¬ (evKey ev = k) := by
        simp only [evKey]; exact fun h => hk h.symm
      simp [if_neg hk, h2]
  · rw [if_neg hs]
    unfold mentionsAt
    rw [findEntry_append]
    have hnone : findEntry reg (normalize_skill ev.name) = none :=
      Option.not_isSome_iff_eq_none.mp hs
    by_cases hk : normalize_skill ev.name = k
    · subst hk
      simp [hnone, findEntry, bumpEntry, evKey]
    · have h2 : ¬ (evKey ev = k) := by simpa only [evKey] using hk
      cases hfe : findEntry reg k with
      | some e => simp [hfe, findEntry, hk, h2]
      | none => simp [hfe, findEntry, hk, h2]

lemma sourcesAt_register (reg : Registry) (ev : OccurrenceEvent) (k : String) :
    sourcesAt (_register_signal reg ev) k =
      if evKey ev = k then insert ev.sourceName (sourcesAt reg k)
      else sourcesAt reg k := by
  unfold _register_signal
  by_cases hs : (findEntry reg (normalize_skill ev.name)).isSome
  · rw [if_pos hs]
    unfold sourcesAt
    rw [findEntry_mapUpdate]
    by_cases hk : k = normalize_skill ev.name
    · subst hk
      obtain ⟨e, he⟩ := Option.isSome_iff_exists.mp hs
      simp [he, bumpEntry, evKey]
    · have h2 : ¬ (evKey ev = k) := by
        simp only [evKey]; exact fun h => hk h.symm
      simp [if_neg hk, h2]
  · rw [if_neg hs]
    unfold sourcesAt
    rw [findEntry_append]
    have hnone : findEntry reg (normalize_skill ev.name) = none :=
      Option.not_isSome_iff_eq_none.mp hs
    by_cases hk : normalize_skill ev.name = k
    · subst hk
      simp [hnone, findEntry, bumpEntry, evKey]
    · have h2 : ¬ (evKey ev = k) := by simpa only [evKey] using hk
      cases hfe : findEntry reg k with
      | some e => simp [hfe, findEntry, hk, h2]
      | none => simp [hfe, findEntry, hk, h2]

lemma isSome_register (reg : Registry) (ev : OccurrenceEvent) (k : String) :
    (findEntry (_register_signal reg ev) k).isSome ↔
      ((findEntry reg k).isSome ∨ evKey ev = k) := by
  unfold _register_signal
  by_cases hs : (findEntry reg (normalize_skill ev.name)).isSome
  · rw [if_pos hs, findEntry_mapUpdate]
    by_cases hk : k = normalize_skill ev.name
    · subst hk
      simp [hs, evKey]
    · have h2 : ¬ (evKey ev = k) := by
        simp only [evKey]; exact fun h => hk h.symm
      simp [if_neg hk, h2]
  · rw [if_neg hs, findEntry_append]
    have hnone : findEntry reg (normalize_skill ev.name) = none :=
      Option.not_isSome_iff_eq_none.mp hs
    by_cases hk : normalize_skill ev.name = k
    · subst hk
      simp [hnone, findEntry, evKey]
    · have h2 : ¬ (evKey ev = k) := by simpa only [evKey] using hk
      by_cases hh : (findEntry reg k).isSome
      · simp [hh, h2]
      · simp [hh, h2, findEntry, hk]

lemma mentionsAt_foldl (evs : List OccurrenceEvent) (reg : Registry) (k : String) :
    mentionsAt (evs.foldl _register_signal reg) k =
      mentionsAt reg k + evs.countP (fun ev => evKey ev = k) := by
  induction evs generalizing reg with
  | nil => simp
  | cons ev evs ih =>
      rw [List.foldl_cons, ih, mentionsAt_register, List.countP_cons]
      by_cases h : evKey ev = k
      · simp [h]
        omega
      · simp [h]

lemma sourcesAt_foldl (evs : List OccurrenceEvent) (reg : Registry) (k : String) :
    sourcesAt (evs.foldl _register_signal reg) k =
      sourcesAt reg k ∪ ((evs.filter fun ev => evKey ev = k).map (·.sourceName)).toFinset := by
  induction evs generalizing reg with
  | nil => simp
  | cons ev evs ih =>
      rw [List.foldl_cons, ih, sourcesAt_register]
      by_cases h : evKey ev = k
      · rw [if_pos h, List.filter_cons_of_pos (by simpa using h)]
        simp [Finset.insert_union, Finset.union_insert]
      · rw [if_neg h, List.filter_cons_of_neg (by simpa using h)]

lemma isSome_foldl (evs : List OccurrenceEvent) (reg : Registry) (k : String) :
    (findEntry (evs.foldl _register_signal reg) k).isSome ↔
      ((findEntry reg k).isSome ∨ ∃ ev ∈ evs, evKey ev = k) := by
  induction evs generalizing reg with
  | nil => simp
  | cons ev evs ih =>
      rw [List.foldl_cons, ih, isSome_register]
      constructor
      · rintro ((h | h) | ⟨e, he, hk⟩)
        · exact Or.inl h
        · exact Or.inr ⟨ev, List.mem_cons_self _ _, h⟩
        · exact Or.inr ⟨e, List.mem_cons_of_mem _ he, hk⟩
      · rintro (h | ⟨e, he, hk⟩)
        · exact Or.inl (Or.inl h)
        · rcases List.mem_cons.mp he with rfl | he
          · exact Or.inl (Or.inr hk)
          · exact Or.inr ⟨e, he, hk⟩

lemma round2_mono {x y : ℝ} (h : x ≤ y) : round2 x ≤ round2 y := by
  unfold round2
  have : round (x * 100) ≤ round (y * 100) := by
    rw [round_eq, round_eq]
    exact Int.floor_mono (by linarith)
  exact div_le_div_of_nonneg_right (by exact_mod_cast this) (by norm_num)

lemma confidenceOf_bounds (sigType : String) (mentions nSources : Nat) :
    0 < confidenceOf sigType mentions nSources ∧
      confidenceOf sigType mentions nSources ≤ 0.98 := by
  unfold confidenceOf
  set mb := min 0.35 (0.12 * Real.log (1 + (mentions : ℝ))) with hmb
  set sb := min 0.2 (0.08 * max 0 ((nSources : ℝ) - 1)) with hsb
  set base := if sigType = "explicit" then (0.55 : ℝ) else 0.45 with hbase
  have hmb0 : 0 ≤ mb := le_min (by norm_num)
    (mul_nonneg (by norm_num)
      (Real.log_nonneg (by linarith [Nat.cast_nonneg (α := ℝ) mentions])))
  have hsb0 : 0 ≤ sb := le_min (by norm_num)
    (mul_nonneg (by norm_num) (le_max_left 0 _))
  have hbase0 : 0.45 ≤ base := by
    rw [hbase]; split <;> norm_num
  have hlo : (0.45 : ℝ) ≤ min 0.98 (base + mb + sb) :=
    le_min (by norm_num) (by linarith)
  have hhi : min 0.98 (base + mb + sb) ≤ 0.98 := min_le_left _ _
  constructor
  · have h45 : round2 0.45 = 0.45 := by
      unfold round2
      rw [show (0.45 : ℝ) * 100 = ((45 : ℤ) : ℝ) by norm_num, round_intCast]
      norm_num
    have := round2_mono hlo
    rw [h45] at this
    linarith
  · have h98 : round2 0.98 = 0.98 := by
      unfold round2
      rw [show (0.98 : ℝ) * 100 = ((98 : ℤ) : ℝ) by norm_num, round_intCast]
      norm_num
    have := round2_mono hhi
    rwa [h98] at this

lemma confidenceOf_explicit_one_one : confidenceOf "explicit" 1 1 = 0.63 := by
  have hdef : confidenceOf "explicit" 1 1 =
      round2 (min 0.98 ((if ("explicit" : String) = "explicit" then (0.55 : ℝ) else 0.45) +
        min 0.35 (0.12 * Real.log (1 + ((1 : Nat) : ℝ))) +
        min 0.2 (0.08 * max 0 (((1 : Nat) : ℝ) - 1)))) := rfl
  rw [hdef, if_pos rfl, show (1 : ℝ) + ((1 : Nat) : ℝ) = 2 by norm_num]
  have hlt : Real.log 2 < 0.6931471808 := Real.log_two_lt_d9
  have hgt : (0.6931471803 : ℝ) < Real.log 2 := Real.log_two_gt_d9
  have hsb : min 0.2 (0.08 * max 0 (((1 : Nat) : ℝ) - 1)) = 0 := by
    norm_num
  have hmb : min 0.35 (0.12 * Real.log 2) = 0.12 * Real.log 2 :=
    min_eq_right (by nlinarith)
  rw [hsb, hmb]
  have hmin : min 0.98 (0.55 + 0.12 * Real.log 2 + 0) = 0.55 + 0.12 * Real.log 2 + 0 :=
    min_eq_right (by nlinarith)
  rw [hmin]
  unfold round2
  have h63 : round ((0.55 + 0.12 * Real.log 2 + 0) * 100) = 63 := by
    rw [round_eq]
    apply Int.floor_eq_iff.mpr
    constructor <;> push_cast <;> nlinarith
  rw [h63]
  norm_num

/-- C1: for every finalized registry entry, the confidence of the
produced SkillSignal equals
`round(min(0.98, base + min(0.35, 0.12*ln(1+mention_count)) +
min(0.20, 0.08*max(0, distinct_source_count-1))), 2)` with base 0.55
for an explicit entry and 0.45 for an implicit one; an explicit entry
with one mention and one source gets confidence 0.63; and every
confidence is strictly positive and at most 0.98. -/
theorem c1_confidence_formula (e : RegEntry) :
    ((e.sigType = "explicit" →
        (signalOfEntry e).confidence =
          round2 (min 0.98 (0.55 + min 0.35 (0.12 * Real.log (1 + (e.mentions : ℝ))) +
            min 0.2 (0.08 * max 0 ((e.sources.card : ℝ) - 1))))) ∧
      (e.sigType = "implicit" →
        (signalOfEntry e).confidence =
          round2 (min 0.98 (0.45 + min 0.35 (0.12 * Real.log (1 + (e.mentions : ℝ))) +
            min 0.2 (0.08 * max 0 ((e.sources.card : ℝ) - 1))))) ∧
      0 < (signalOfEntry e).confidence ∧
      (signalOfEntry e).confidence ≤ 0.98) ∧
    confidenceOf "explicit" 1 1 = 0.63 := by
  refine ⟨⟨?_, ?_, ?_, ?_⟩, confidenceOf_explicit_one_one⟩
  · intro h
    show confidenceOf e.sigType e.mentions e.sources.card = _
    unfold confidenceOf
    rw [if_pos h]
  · intro h
    show confidenceOf e.sigType e.mentions e.sources.card = _
    unfold confidenceOf
    rw [if_neg (by rw [h]; decide)]
  · exact (confidenceOf_bounds e.sigType e.mentions e.sources.card).1
  · exact (confidenceOf_bounds e.sigType e.mentions e.sources.card).2

/-- Witness for C1 at a concrete explicit registry entry with one
mention and one source. -/
theorem c1_confidence_formula_witness :
    (signalOfEntry ⟨"python", "Technical Foundation", "explicit",
        {"resume"}, [], 1⟩).confidence =
      round2 (min 0.98 (0.55 + min 0.35 (0.12 * Real.log (1 + ((1 : Nat) : ℝ))) +
        min 0.2 (0.08 * max 0 (((({"resume"} : Finset String).card : ℝ)) - 1)))) ∧
    0 < (signalOfEntry ⟨"python", "Technical Foundation", "explicit",
        {"resume"}, [], 1⟩).confidence ∧
    confidenceOf "explicit" 1 1 = 0.63 := by
  have h := c1_confidence_formula
    ⟨"python", "Technical Foundation", "explicit", {"resume"}, [], 1⟩
  exact ⟨h.1.1 rfl, h.1.2.2.1, h.2⟩

/-- C2, counterexample: building from `[A, B]` and from `[B, A]` does
not always yield identical signals. With `A` = "Led" (implicit
leadership only) and `B` = "leadership" (explicit leadership only), the
first-seen signal kind differs between the two orders. -/
theorem c2_order_dependent_counterexample :
    (build_skill_profile (fun _ => "")
        [⟨"A", "note", "Led", "private", "manual"⟩,
         ⟨"B", "note", "leadership", "private", "manual"⟩]).signals ≠
    (build_skill_profile (fun _ => "")
        [⟨"B", "note", "leadership", "private", "manual"⟩,
         ⟨"A", "note", "Led", "private", "manual"⟩]).signals := by
  have hAB : (build_skill_profile (fun _ => "")
      [⟨"A", "note", "Led", "private", "manual"⟩,
       ⟨"B", "note", "leadership", "private", "manual"⟩]).signals.map (·.signal_type) =
      ["implicit"] := by
    show ((_finalize_registry (buildRegistry _)).map (·.signal_type)) = _
    rw [show buildRegistry
        [⟨"A", "note", "Led", "private", "manual"⟩,
         ⟨"B", "note", "leadership", "private", "manual"⟩] =
      [("leadership", ⟨"leadership", "Leadership & Impact", "implicit",
          insert "B" {"A"}, [⟨"A", "Led"⟩, ⟨"B", "leadership"⟩], 2⟩)] from by decide]
    rfl
  have hBA : (build_skill_profile (fun _ => "")
      [⟨"B", "note", "leadership", "private", "manual"⟩,
       ⟨"A", "note", "Led", "private", "manual"⟩]).signals.map (·.signal_type) =
      ["explicit"] := by
    show ((_finalize_registry (buildRegistry _)).map (·.signal_type)) = _
    rw [show buildRegistry
        [⟨"B", "note", "leadership", "private", "manual"⟩,
         ⟨"A", "note", "Led", "private", "manual"⟩] =
      [("leadership", ⟨"leadership", "Leadership & Impact", "explicit",
          insert "A" {"B"}, [⟨"B", "leadership"⟩, ⟨"A", "Led"⟩], 2⟩)] from by decide]
    rfl
  intro h
  rw [h, hBA] at hAB
  exact absurd (List.head_eq_of_cons_eq hAB) (by decide)

/-- C2 (amended): aggregation across documents is order-independent for
the registered key set, the mention counts and the contributing-source
sets — for every pair of documents and every normalized skill key, the
registries built from `[A, B]` and `[B, A]` hold the same keys with the
same mention count and the same source set. (The signal kind — and with
it the confidence — is first-seen-wins and may differ with document
order when one document matches a skill implicitly and the other
matches the same skill explicitly.) -/
theorem c2_aggregation_counts_commutative (A B : SourceDocument) (k : String) :
    mentionsAt (buildRegistry [A, B]) k = mentionsAt (buildRegistry [B, A]) k ∧
    sourcesAt (buildRegistry [A, B]) k = sourcesAt (buildRegistry [B, A]) k ∧
    ((findEntry (buildRegistry [A, B]) k).isSome ↔
      (findEntry (buildRegistry [B, A]) k).isSome) := by
  have hAB : allEvents [A, B] = allEvents [A] ++ allEvents [B] :=
    allEvents_append [A] [B]
  have hBA : allEvents [B, A] = allEvents [B] ++ allEvents [A] :=
    allEvents_append [B] [A]
  refine ⟨?_, ?_, ?_⟩
  · rw [buildRegistry_eq, buildRegistry_eq, hAB, hBA,
      mentionsAt_foldl, mentionsAt_foldl, List.countP_append, List.countP_append]
    omega
  · rw [buildRegistry_eq, buildRegistry_eq, hAB, hBA,
      sourcesAt_foldl, sourcesAt_foldl, List.filter_append, List.filter_append,
      List.map_append, List.map_append, List.toFinset_append, List.toFinset_append]
    rw [Finset.union_comm (α := String)
      ((allEvents [A]).filter (fun ev => evKey ev = k) |>.map (·.sourceName)).toFinset]
  · rw [buildRegistry_eq, buildRegistry_eq, hAB, hBA, isSome_foldl, isSome_foldl]
    constructor
    · rintro (h | ⟨ev, hev, hk⟩)
      · exact Or.inl h
      · exact Or.inr ⟨ev, by simpa [or_comm] using List.mem_append.mp hev, hk⟩
    · rintro (h | ⟨ev, hev, hk⟩)
      · exact Or.inl h
      · exact Or.inr ⟨ev, by simpa [or_comm] using List.mem_append.mp hev, hk⟩

/-- Well-formedness of a registry: every entry sits under the
normalized form of its own display name, and keys are pairwise
distinct (true of the dict `_register_signal` maintains). -/
def goodReg (reg : Registry) : Prop :=
  (∀ kv ∈ reg, normalize_skill kv.2.name = kv.1) ∧ (reg.map (·.1)).Nodup

lemma goodReg_register (reg : Registry) (ev : OccurrenceEvent)
    (h : goodReg reg) : goodReg (_register_signal reg ev) := by
  obtain ⟨hnames, hnodup⟩ := h
  unfold _register_signal
  by_cases hs : (findEntry reg (normalize_skill ev.name)).isSome
  · rw [if_pos hs]
    constructor
    · intro kv hkv
      obtain ⟨kv₀, hkv₀, hmap⟩ := List.mem_map.mp hkv
      by_cases hk : kv₀.1 = normalize_skill ev.name
      · rw [if_pos hk] at hmap
        have := hnames kv₀ hkv₀
        simp [← hmap, bumpEntry, this]
      · rw [if_neg hk] at hmap
        exact hmap ▸ hnames kv₀ hkv₀
    · have hkeys : (List.map (·.1) (reg.map fun kv =>
          if kv.1 = normalize_skill ev.name
          then (kv.1, bumpEntry ev.sourceName ev.snippet kv.2) else kv)) =
          reg.map (·.1) := by
        rw [List.map_map]
        refine List.map_congr_left fun kv _ => ?_
        by_cases hk : kv.1 = normalize_skill ev.name
        · simp [hk]
        · simp [hk]
      rw [hkeys]
      exact hnodup
  · rw [if_neg hs]
    constructor
    · intro kv hkv
      rcases List.mem_append.mp hkv with hold | hnew
      · exact hnames kv hold
      · rcases List.mem_singleton.mp hnew with rfl
        simp [bumpEntry]
    · rw [List.map_append]
      refine List.Nodup.append hnodup (by simp) ?_
      intro k hk₁ hk₂
      simp only [List.map_cons, List.map_nil, List.mem_singleton] at hk₂
      subst hk₂
      exact hs ((findEntry_isSome_iff reg _).mpr hk₁)

lemma goodReg_foldl (evs : List OccurrenceEvent) (reg : Registry)
    (h : goodReg reg) : goodReg (evs.foldl _register_signal reg) := by
  induction evs generalizing reg with
  | nil => exact h
  | cons ev evs ih => exact ih _ (goodReg_register reg ev h)

lemma goodReg_build (sources : List SourceDocument) :
    goodReg (buildRegistry sources) :=
  goodReg_foldl _ [] ⟨by simp, by simp⟩

lemma build_signals_perm (render : ℝ → String) (sources : List SourceDocument) :
    List.Perm (build_skill_profile render sources).signals
      ((buildRegistry sources).map fun kv => signalOfEntry kv.2) := by
  show List.Perm (List.insertionSort signalLE
    ((buildRegistry sources).map fun kv => signalOfEntry kv.2)) _
  exact List.perm_insertionSort signalLE _

lemma build_signals_keys_nodup (render : ℝ → String) (sources : List SourceDocument) :
    ((build_skill_profile render sources).signals.map
      (fun s => normalize_skill s.name)).Nodup := by
  obtain ⟨hnames, hnodup⟩ := goodReg_build sources
  have hperm := (build_signals_perm render sources).map
    (fun s => normalize_skill s.name)
  refine hperm.nodup_iff.mpr ?_
  rw [List.map_map]
  have : (buildRegistry sources).map
      ((fun s => normalize_skill s.name) ∘ fun kv => signalOfEntry kv.2) =
      (buildRegistry sources).map (·.1) :=
    List.map_congr_left fun kv hkv => hnames kv hkv
  rw [this]
  exact hnodup

/-- C4: no SkillSignal produced by a profile build carries more than 3
evidence entries, whatever the batch. -/
theorem c4_evidence_cap (render : ℝ → String) (sources : List SourceDocument)
    (sig : SkillSignal) (h : sig ∈ (build_skill_profile render sources).signals) :
    sig.evidence.length ≤ 3 := by
  have hmem := (build_signals_perm render sources).mem_iff.mp h
  obtain ⟨kv, _, rfl⟩ := List.mem_map.mp hmem
  show (kv.2.snippets.take 3).length ≤ 3
  simp

/-- Witness for C4 on a one-document batch in which the skill occurs. -/
theorem c4_evidence_cap_witness :
    ∃ sig ∈ (build_skill_profile (fun _ => "")
      [⟨"R", "cv", "python", "private", "manual"⟩]).signals,
      sig.evidence.length ≤ 3 := by
  have hsig : (build_skill_profile (fun _ => "")
      [⟨"R", "cv", "python", "private", "manual"⟩]).signals =
      [signalOfEntry ⟨"python", "Technical Foundation", "explicit",
        {"R"}, [⟨"R", "python"⟩], 1⟩] := by
    show _finalize_registry (buildRegistry _) = _
    rw [show buildRegistry [⟨"R", "cv", "python", "private", "manual"⟩] =
      [("python", ⟨"python", "Technical Foundation", "explicit",
        {"R"}, [⟨"R", "python"⟩], 1⟩)] from by decide]
    rfl
  refine ⟨_, by rw [hsig]; exact List.mem_singleton.mpr rfl, ?_⟩
  exact c4_evidence_cap (fun _ => "") [⟨"R", "cv", "python", "private", "manual"⟩] _
    (by rw [hsig]; exact List.mem_singleton.mpr rfl)

lemma findEntry_eq_none_iff {α : Type} (l : List (String × α)) (k : String) :
    findEntry l k = none ↔ k ∉ l.map (·.1) := by
  rw [← findEntry_isSome_iff, Option.not_isSome_iff_eq_none]

lemma foldl_skillSetInsert (signals : List SkillSignal)
    (acc : List (String × SkillSignal))
    (h : (acc.map (·.1) ++ signals.map fun s => normalize_skill s.name).Nodup) :
    signals.foldl skillSetInsert acc =
      acc ++ signals.map fun s => (normalize_skill s.name, s) := by
  induction signals generalizing acc with
  | nil => simp
  | cons s rest ih =>
      have hnotin : normalize_skill s.name ∉ acc.map (·.1) := by
        intro hmem
        exact (List.disjoint_of_nodup_append h) hmem (by simp)
      have hstep : skillSetInsert acc s = acc ++ [(normalize_skill s.name, s)] := by
        have hnone := (findEntry_eq_none_iff acc (normalize_skill s.name)).mpr hnotin
        simp [skillSetInsert, hnone]
      rw [List.foldl_cons, hstep, ih]
      · simp
      · rw [List.map_append]
        simpa [List.append_assoc] using h

lemma as_skill_set_of_nodup (signals : List SkillSignal)
    (h : (signals.map fun s => normalize_skill s.name).Nodup) :
    as_skill_set signals = signals.map fun s => (normalize_skill s.name, s) := by
  have := foldl_skillSetInsert signals [] (by simpa using h)
  simpa [as_skill_set] using this

/-- C9: comparing a built profile against an empty team-member list
returns a well-formed result: team size 0, team skill coverage 0, no
team gaps, and unique strengths listing the sorted display names of all
of the candidate's signals. -/
theorem c9_empty_team (render : ℝ → String) (sources : List SourceDocument) :
    compare_against_team (build_skill_profile render sources) [] =
      { team_size := 0
        team_skill_coverage := 0
        unique_strengths := sortedList
          ((build_skill_profile render sources).signals.map (·.name))
        team_gaps := [] } := by
  have hset := as_skill_set_of_nodup _ (build_signals_keys_nodup render sources)
  unfold compare_against_team
  rw [hset]
  simp [Finset.not_mem_empty, List.map_map, Finset.filter_eq_empty_iff,
    Function.comp_def]

/-- C7: every profile build returns its signal sequence sorted by
confidence descending, with equal-confidence signals ordered by name
descending. -/
theorem c7_signals_sorted (render : ℝ → String) (sources : List SourceDocument) :
    ((build_skill_profile render sources).signals).Pairwise
      (fun a b => b.confidence < a.confidence ∨
        (b.confidence = a.confidence ∧ strLe b.name a.name)) := by
  show List.Sorted signalLE (build_skill_profile render sources).signals
  exact List.sorted_insertionSort signalLE
    ((buildRegistry sources).map fun kv => signalOfEntry kv.2)

lemma round2_zero : round2 0 = 0 := by
  unfold round2
  rw [zero_mul, round_zero]
  norm_num

/-- C3: the framework-alignment coverage reported in ProfileStats is,
for each framework category, `round2` of the size of the intersection
of normalized covered skills with normalized target skills divided by
the number of (normalized) target skills, and 0 when the category has
no target skills — never a division fault (the guarded branch returns
0 before any division). -/
theorem c3_framework_coverage (signals : List SkillSignal)
    (sources : List SourceDocument) (category : String) (skills : List String) :
    ((_profile_stats signals sources).framework_alignment =
      FORMAL_SKILL_FRAMEWORK.map fun cs => (cs.1, alignFor signals cs.1 cs.2)) ∧
    ((skills.map normalize_skill).toFinset ≠ ∅ →
      (alignFor signals category skills).coverage =
        round2 ((((((signals.filter fun s => s.category = category).map
            fun s => normalize_skill s.name).toFinset ∩
            (skills.map normalize_skill).toFinset).card : ℝ)) /
          ((skills.map normalize_skill).toFinset.card : ℝ))) ∧
    ((skills.map normalize_skill).toFinset = ∅ →
      (alignFor signals category skills).coverage = 0) := by
  refine ⟨rfl, ?_, ?_⟩
  · intro h
    simp only [alignFor, if_pos h]
  · intro h
    simp only [alignFor, h, ite_not, if_pos rfl]
    exact round2_zero

/-- Witness for C3: with no signals the Leadership & Impact coverage is
`round2 (0 / 7)` = 0, and a category with an empty target list reports
coverage 0. -/
theorem c3_framework_coverage_witness :
    (alignFor [] "Leadership & Impact"
      ["leadership", "mentorship", "communication", "strategic planning",
       "problem solving", "innovation", "change management"]).coverage = 0 ∧
    (alignFor [] "Leadership & Impact" []).coverage = 0 := by
  constructor
  · have h := (c3_framework_coverage [] [] "Leadership & Impact"
      ["leadership", "mentorship", "communication", "strategic planning",
       "problem solving", "innovation", "change management"]).2.1 (by decide)
    rw [h]
    rw [show ((([] : List SkillSignal).filter
        fun s => s.category = "Leadership & Impact").map
        fun s => normalize_skill s.name).toFinset = (∅ : Finset String) from rfl]
    rw [Finset.empty_inter]
    simpa using round2_zero
  · exact (c3_framework_coverage [] [] "Leadership & Impact" []).2.2 rfl

/-- C8: team-inventory parsing keeps exactly the `Name: skills` lines —
the parse is the line-wise filterMap of `parseTeamLine`, a line without
a colon is skipped, a line whose comma-split skill list is empty after
trimming is skipped, and a well-formed line yields the trimmed name
with the trimmed non-empty skills; the three-line example keeps Asha
(2 skills) and Kofi (1 skill) and drops the malformed line. -/
theorem c8_team_parsing :
    (parse_team_profiles "Asha: cloud, security\nBadLine\nKofi: python" =
      [⟨"Asha", ["cloud", "security"]⟩, ⟨"Kofi", ["python"]⟩]) ∧
    (∀ raw_text : String, parse_team_profiles raw_text =
      (pySplit '\n' raw_text).filterMap parseTeamLine) ∧
    (∀ line : String, ¬ line.data.contains ':' → parseTeamLine line = none) ∧
    (∀ line : String,
      ((pySplit ',' (String.mk ((line.data.dropWhile (· ≠ ':')).drop 1))).map
        pyStrip).filter (· ≠ "") = [] → parseTeamLine line = none) ∧
    (∀ line : String, line.data.contains ':' →
      ((pySplit ',' (String.mk ((line.data.dropWhile (· ≠ ':')).drop 1))).map
        pyStrip).filter (· ≠ "") ≠ [] →
      parseTeamLine line = some
        ⟨pyStrip (String.mk (line.data.takeWhile (· ≠ ':'))),
         ((pySplit ',' (String.mk ((line.data.dropWhile (· ≠ ':')).drop 1))).map
           pyStrip).filter (· ≠ "")⟩) := by
  refine ⟨by decide, ?_, ?_, ?_, ?_⟩
  · intro raw_text
    by_cases h : raw_text = ""
    · subst h; decide
    · simp [parse_team_profiles, h]
  · intro line h
    unfold parseTeamLine
    rw [if_pos h]
  · intro line h
    unfold parseTeamLine
    by_cases hc : line.data.contains ':'
    · rw [if_neg (not_not_intro hc)]
      dsimp only
      rw [h, if_pos rfl]
    · rw [if_pos hc]
  · intro line hc h
    unfold parseTeamLine
    rw [if_neg (not_not_intro hc)]
    dsimp only
    rw [if_neg h]

/-- Witness for C8 at the example lines: the malformed line and the
empty-skill line are dropped, the well-formed line is kept. -/
theorem c8_team_parsing_witness :
    parseTeamLine "BadLine" = none ∧
    parseTeamLine "Asha: , ," = none ∧
    parseTeamLine "Kofi: python" = some ⟨"Kofi", ["python"]⟩ := by
  refine ⟨c8_team_parsing.2.2.1 "BadLine" (by decide),
    c8_team_parsing.2.2.2.1 "Asha: , ," (by decide), ?_⟩
  have h := c8_team_parsing.2.2.2.2 "Kofi: python" (by decide) (by decide)
  rw [h]
  decide

/-- C10: the CV-highlight generator returns one bullet per leading
signal — the bullets are exactly `bulletFor` mapped over the first
`limit` signals, so never more than `limit` — and a signal with an
empty evidence list produces the bullet without an evidence clause
rather than an out-of-bounds access. -/
theorem c10_cv_highlights (render : ℝ → String) (skill_profile : SkillProfileP)
    (limit : Nat) :
    ((generate_cv_highlights render skill_profile limit).length ≤ limit) ∧
    (generate_cv_highlights render skill_profile limit =
      (skill_profile.signals.take limit).map (bulletFor render)) ∧
    (∀ sig : SkillSignal, sig.evidence = [] →
      bulletFor render sig =
        titleCase sig.name ++ " (" ++ sig.category ++ ") - confidence " ++
          render sig.confidence) := by
  refine ⟨?_, rfl, ?_⟩
  · show ((skill_profile.signals.take limit).map (bulletFor render)).length ≤ limit
    simp
  · intro sig h
    simp [bulletFor, h]

/-- Witness for C10 on a one-signal profile whose signal has no
evidence. -/
theorem c10_cv_highlights_witness :
    (generate_cv_highlights (fun _ => "0.55")
      ⟨[⟨"python", "Technical Foundation", "explicit", 0, [], []⟩],
        ⟨0, 0, 0, [], [], 0, [], []⟩, ""⟩ 4).length ≤ 4 ∧
    bulletFor (fun _ => "0.55")
        ⟨"python", "Technical Foundation", "explicit", 0, [], []⟩ =
      "Python (Technical Foundation) - confidence 0.55" := by
  have h := c10_cv_highlights (fun _ => "0.55")
    ⟨[⟨"python", "Technical Foundation", "explicit", 0, [], []⟩],
      ⟨0, 0, 0, [], [], 0, [], []⟩, ""⟩ 4
  refine ⟨h.1, ?_⟩
  rw [h.2.2 ⟨"python", "Technical Foundation", "explicit", 0, [], []⟩ rfl]
  rfl

/-- C5: matching against empty or whitespace-only job text returns
`none` (the defined null-equivalent) and never raises; matching against
non-empty job text from which zero skills are detected returns a
well-formed result with coverage 0, empty matched set, empty gaps and
empty recommendations rather than an error. -/
theorem c5_degenerate_job_text (render : ℝ → String)
    (resources : List String → List (String × String))
    (skill_profile : SkillProfileP) (job_text : String) :
    (pyStrip job_text = "" →
      match_profile_to_job render resources skill_profile job_text = none) ∧
    (pyStrip job_text ≠ "" →
      as_skill_set (build_skill_profile render [jobSourceOf job_text]).signals = [] →
      match_profile_to_job render resources skill_profile job_text =
        some { coverage := 0, matched := [], gaps := [], recommendations := []
               raw_job_profile :=
                 build_skill_profile render [jobSourceOf job_text] }) := by
  constructor
  · intro h
    unfold match_profile_to_job
    rw [if_pos (Or.inr h)]
  · intro htrim hzero
    have hcond : ¬ (job_text = "" ∨ pyStrip job_text = "") := by
      rintro (rfl | h)
      · exact htrim rfl
      · exact htrim h
    unfold match_profile_to_job
    rw [if_neg hcond]
    dsimp only
    rw [hzero]
    rfl

/-- Witness for C5: whitespace-only job text gives `none`; job text
with no detectable skills gives the explicit zero-signal result. -/
theorem c5_degenerate_job_text_witness :
    match_profile_to_job (fun _ => "") (fun _ => [])
      ⟨[], ⟨0, 0, 0, [], [], 0, [], []⟩, ""⟩ "   " = none ∧
    match_profile_to_job (fun _ => "") (fun _ => [])
      ⟨[], ⟨0, 0, 0, [], [], 0, [], []⟩, ""⟩ "hello world" =
      some { coverage := 0, matched := [], gaps := [], recommendations := []
             raw_job_profile :=
               build_skill_profile (fun _ => "") [jobSourceOf "hello world"] } := by
  constructor
  · exact (c5_degenerate_job_text (fun _ => "") (fun _ => [])
      ⟨[], ⟨0, 0, 0, [], [], 0, [], []⟩, ""⟩ "   ").1 (by decide)
  · refine (c5_degenerate_job_text (fun _ => "") (fun _ => [])
      ⟨[], ⟨0, 0, 0, [], [], 0, [], []⟩, ""⟩ "hello world").2 (by decide) ?_
    show as_skill_set (_finalize_registry (buildRegistry [jobSourceOf "hello world"])) = []
    rw [show buildRegistry [jobSourceOf "hello world"] = [] from by decide]
    rfl

lemma sortedSet_mem (n : String) (names : List String) :
    n ∈ sortedSet names ↔ n ∈ names := by
  unfold sortedSet
  rw [List.mem_insertionSort, List.mem_dedup]

lemma sortedSet_nodup (names : List String) : (sortedSet names).Nodup :=
  (List.perm_insertionSort strLe _).nodup_iff.mpr (List.nodup_dedup _)

lemma sortedSet_sorted (names : List String) :
    List.Sorted strLe (sortedSet names) :=
  List.sorted_insertionSort strLe _

/-- C6: when the job text yields a non-empty skill set, `matched` is
exactly the job skills whose normalized key exists in the candidate
mapping and `gaps` exactly those whose key does not, both deduplicated
and sorted ascending, and coverage is the matched-key count over the
job skill-set size, rounded to two decimals. -/
theorem c6_job_match_sets (render : ℝ → String)
    (resources : List String → List (String × String))
    (skill_profile : SkillProfileP) (job_text : String)
    (htrim : pyStrip job_text ≠ "")
    (hne : as_skill_set
      (build_skill_profile render [jobSourceOf job_text]).signals ≠ []) :
    ∃ r, match_profile_to_job render resources skill_profile job_text = some r ∧
      (∀ n, n ∈ r.matched ↔
        n ∈ (((as_skill_set
            (build_skill_profile render [jobSourceOf job_text]).signals).filter
          fun kv => hasKey (as_skill_set skill_profile.signals) kv.1).map
            fun kv => kv.2.name)) ∧
      r.matched.Nodup ∧ List.Sorted strLe r.matched ∧
      (∀ n, n ∈ r.gaps ↔
        n ∈ (((as_skill_set
            (build_skill_profile render [jobSourceOf job_text]).signals).filter
          fun kv => !hasKey (as_skill_set skill_profile.signals) kv.1).map
            fun kv => kv.2.name)) ∧
      r.gaps.Nodup ∧ List.Sorted strLe r.gaps ∧
      r.coverage = round2
        (((((as_skill_set
            (build_skill_profile render [jobSourceOf job_text]).signals).filter
          fun kv => hasKey (as_skill_set skill_profile.signals) kv.1).length : ℝ)) /
         ((as_skill_set
            (build_skill_profile render [jobSourceOf job_text]).signals).length : ℝ)) := by
  have hcond : ¬ (job_text = "" ∨ pyStrip job_text = "") := by
    rintro (rfl | h)
    · exact htrim rfl
    · exact htrim h
  unfold match_profile_to_job
  rw [if_neg hcond]
  dsimp only
  set cand := as_skill_set skill_profile.signals with hcand
  set js := as_skill_set
    (build_skill_profile render [jobSourceOf job_text]).signals with hjs
  have hemp : ¬ (js.isEmpty = true) := by
    rw [List.isEmpty_iff, hjs]
    exact hne
  rw [if_neg hemp]
  refine ⟨_, rfl, ?_, ?_, ?_, ?_, ?_, ?_, ?_⟩
  · intro n
    dsimp only
    exact sortedSet_mem n _
  · dsimp only
    exact sortedSet_nodup _
  · dsimp only
    exact sortedSet_sorted _
  · intro n
    dsimp only
    exact sortedSet_mem n _
  · dsimp only
    exact sortedSet_nodup _
  · dsimp only
    exact sortedSet_sorted _
  · dsimp only
    rw [if_neg hemp, List.length_map]

/-- Witness for C6: candidate knowing python, java and sql matched
against the job text "python java sql docker" — 4 job skills, 3
matched — gives coverage 0.75, with docker as the gap. -/
theorem c6_job_match_sets_witness :
    ∃ r, match_profile_to_job (fun _ => "") (fun _ => [])
      ⟨[⟨"python", "Technical Foundation", "explicit", 0, [], []⟩,
        ⟨"java", "Technical Foundation", "explicit", 0, [], []⟩,
        ⟨"sql", "Technical Foundation", "explicit", 0, [], []⟩],
       ⟨0, 0, 0, [], [], 0, [], []⟩, ""⟩ "python java sql docker" = some r ∧
      r.coverage = 0.75 ∧ "python" ∈ r.matched ∧ "docker" ∉ r.matched ∧
      "docker" ∈ r.gaps := by
  have hreg : buildRegistry [jobSourceOf "python java sql docker"] =
      [("python", ⟨"python", "Technical Foundation", "explicit",
          insert "Job Posting" ∅, [⟨"Job Posting", "python java sql docker"⟩], 1⟩),
       ("java", ⟨"java", "Technical Foundation", "explicit",
          insert "Job Posting" ∅, [⟨"Job Posting", "python java sql docker"⟩], 1⟩),
       ("sql", ⟨"sql", "Technical Foundation", "explicit",
          insert "Job Posting" ∅, [⟨"Job Posting", "python java sql docker"⟩], 1⟩),
       ("docker", ⟨"docker", "Technical Foundation", "explicit",
          insert "Job Posting" ∅, [⟨"Job Posting", "python java sql docker"⟩], 1⟩)] := by
    decide
  have hperm := build_signals_perm (fun _ => "") [jobSourceOf "python java sql docker"]
  rw [hreg] at hperm
  have hset := as_skill_set_of_nodup _
    (build_signals_keys_nodup (fun _ => "") [jobSourceOf "python java sql docker"])
  have hlen4 : (build_skill_profile (fun _ => "")
      [jobSourceOf "python java sql docker"]).signals.length = 4 := by
    rw [hperm.length_eq]
    rfl
  have hne : as_skill_set (build_skill_profile (fun _ => "")
      [jobSourceOf "python java sql docker"]).signals ≠ [] := by
    rw [hset]
    intro h
    have := congrArg List.length h
    rw [List.length_map, hlen4] at this
    exact absurd this (by decide)
  obtain ⟨r, hmatch, hm, hnd, hs, hg, hgn, hgs, hcov⟩ :=
    c6_job_match_sets (fun _ => "") (fun _ => [])
      ⟨[⟨"python", "Technical Foundation", "explicit", 0, [], []⟩,
        ⟨"java", "Technical Foundation", "explicit", 0, [], []⟩,
        ⟨"sql", "Technical Foundation", "explicit", 0, [], []⟩],
       ⟨0, 0, 0, [], [], 0, [], []⟩, ""⟩ "python java sql docker" (by decide) hne
  refine ⟨r, hmatch, ?_, ?_, ?_, ?_⟩
  · -- coverage = 0.75
    have hjsl : (as_skill_set (build_skill_profile (fun _ => "")
        [jobSourceOf "python java sql docker"]).signals).length = 4 := by
      rw [hset, List.length_map, hlen4]
    have hfl : ((as_skill_set (build_skill_profile (fun _ => "")
        [jobSourceOf "python java sql docker"]).signals).filter
        (fun kv => hasKey (as_skill_set (⟨[⟨"python", "Technical Foundation", "explicit", 0, [], []⟩,
        ⟨"java", "Technical Foundation", "explicit", 0, [], []⟩,
        ⟨"sql", "Technical Foundation", "explicit", 0, [], []⟩],
       ⟨0, 0, 0, [], [], 0, [], []⟩, ""⟩ : SkillProfileP).signals) kv.1)).length = 3 := by
      rw [hset, ← List.countP_eq_length_filter, List.countP_map,
        hperm.countP_eq]
      decide
    rw [hcov, hjsl, hfl]
    show round2 (((3:Nat) : ℝ) / ((4:Nat) : ℝ)) = 0.75
    unfold round2
    rw [show (((3:Nat) : ℝ) / ((4:Nat) : ℝ)) * 100 = ((75 : ℤ) : ℝ) by push_cast; norm_num,
      round_intCast]
    norm_num
  · rw [hm "python", hset, (((hperm.map _).filter _).map _).mem_iff]
    decide
  · rw [hm "docker", hset, (((hperm.map _).filter _).map _).mem_iff]
    decide
  · rw [hg "docker", hset, (((hperm.map _).filter _).map _).mem_iff]
    decide


end Talent
